import Mathlib

/-!
Shallow embedding of `src/ToxCast/toxcast_process.py` from the
opentargets/target_safety_data_pipeline repository.

Tables are lists of records; missing values (pandas `NaN`) are `none` of an
`Option` type.  The pandas `merge(..., how="inner")` is modelled as a nested
flat-map preserving left row order, with key matching being plain equality on
`Option String` (pandas merges match missing keys with each other).  The
`query` filters are modelled as boolean row predicates following the pandas
semantics of the expressions in the source, where comparing a column against a
list with `!=` is list non-membership.  Column bookkeeping of the merges
(suffixing of colliding column names and the subsequent `drop`) is modelled
separately at the level of column-name lists.
-/

namespace ToxCast

/-- One row of the assay-methods table after projection to `assays_cols`. -/
structure AssayRow where
  assay_component_endpoint_name : Option String
  acid : Option Int
  assay_component_name : Option String
  assay_function_type : Option String
  intended_target_family : Option String
  intended_target_family_sub : Option String
  assay_component_desc : Option String
  assay_design_type : Option String
  biological_process_target : Option String
  organism : Option String
  tissue : Option String
  cell_format : Option String
  cell_short_name : Option String
  assay_format_type : Option String
deriving DecidableEq, Repr

/-- One row of the gene-target table after projection to `targets_cols`. -/
structure TargetRow where
  official_symbol : Option String
  aenm : Option String
deriving DecidableEq, Repr

/-- One row of the quality-statistics table after projection to
`quality_stats_cols`. -/
structure QualityRow where
  aenm : Option String
  acnt : Option Int
deriving DecidableEq, Repr

/-- One row of the concentration-curves table after projection to
`conc_curves_cols`. -/
structure ConcRow where
  aenm : Option String
  hitc : Option Int
  flags : Option String
deriving DecidableEq, Repr

/-- One row of the enriched table produced by `enrich_assays`: the 14
projected assay columns, `official_symbol` from targets, `acnt` from quality
statistics, and `aenm`, `hitc`, `flags` from the concentration curves (the
suffixed key copies `aenm_x`, `aenm_y` are dropped; the unsuffixed `aenm`
from the third merge survives). -/
structure EnrichedRow where
  assay_component_endpoint_name : Option String
  acid : Option Int
  assay_component_name : Option String
  assay_function_type : Option String
  intended_target_family : Option String
  intended_target_family_sub : Option String
  assay_component_desc : Option String
  assay_design_type : Option String
  biological_process_target : Option String
  organism : Option String
  tissue : Option String
  cell_format : Option String
  cell_short_name : Option String
  assay_format_type : Option String
  official_symbol : Option String
  acnt : Option Int
  aenm : Option String
  hitc : Option Int
  flags : Option String
deriving DecidableEq, Repr

/-- `pd.merge(ls, rs, left_on, right_on, how="inner")` at row level: for each
left row in order, all right rows whose key equals the left key (pandas
matches missing keys with each other, so matching is plain `Option`
equality). -/
def innerMerge {α β : Type} (ls : List α) (rs : List β)
    (kl : α → Option String) (kr : β → Option String) : List (α × β) :=
  ls.flatMap fun a => (rs.filter fun b => kr b == kl a).map fun b => (a, b)

/-- Assembles one enriched row from one matched row of each source, as the
three chained merges followed by `.drop(["aenm_x", "aenm_y"], axis=1)` do. -/
def buildRow (a : AssayRow) (t : TargetRow) (q : QualityRow) (c : ConcRow) :
    EnrichedRow :=
  { assay_component_endpoint_name := a.assay_component_endpoint_name
    acid := a.acid
    assay_component_name := a.assay_component_name
    assay_function_type := a.assay_function_type
    intended_target_family := a.intended_target_family
    intended_target_family_sub := a.intended_target_family_sub
    assay_component_desc := a.assay_component_desc
    assay_design_type := a.assay_design_type
    biological_process_target := a.biological_process_target
    organism := a.organism
    tissue := a.tissue
    cell_format := a.cell_format
    cell_short_name := a.cell_short_name
    assay_format_type := a.assay_format_type
    official_symbol := t.official_symbol
    acnt := q.acnt
    aenm := c.aenm
    hitc := c.hitc
    flags := c.flags }

/-- The three chained inner merges of `enrich_assays`, before
`drop_duplicates`: assays ⋈ targets ⋈ quality_stats ⋈ conc_curves, each
keyed on the left `assay_component_endpoint_name` against the right
`aenm`. -/
def rawJoin (assays : List AssayRow) (targets : List TargetRow)
    (quality_stats : List QualityRow) (conc_curves : List ConcRow) :
    List EnrichedRow :=
  let m1 := innerMerge assays targets
    (fun a => a.assay_component_endpoint_name) (fun t => t.aenm)
  let m2 := innerMerge m1 quality_stats
    (fun p => p.1.assay_component_endpoint_name) (fun q => q.aenm)
  let m3 := innerMerge m2 conc_curves
    (fun p => p.1.1.assay_component_endpoint_name) (fun c => c.aenm)
  m3.map fun p => buildRow p.1.1.1 p.1.1.2 p.1.2 p.2

/-- The `drop_duplicates` subset of `enrich_assays`:
`["assay_component_name", "biological_process_target", "official_symbol"]`. -/
def dedupKey (r : EnrichedRow) : Option String × Option String × Option String :=
  (r.assay_component_name, r.biological_process_target, r.official_symbol)

/-- `drop_duplicates(subset=..., keep="first")`: keeps a row iff its dedup key
has not been seen on an earlier row; `seen` accumulates the keys kept so
far. -/
def dropDupAux (seen : List (Option String × Option String × Option String)) :
    List EnrichedRow → List EnrichedRow
  | [] => []
  | r :: rs =>
    if dedupKey r ∈ seen then dropDupAux seen rs
    else r :: dropDupAux (dedupKey r :: seen) rs

/-- `drop_duplicates` keeping the first occurrence of each dedup key. -/
def dropDuplicatesFirst (l : List EnrichedRow) : List EnrichedRow :=
  dropDupAux [] l

/-- `enrich_assays`: the three inner merges, the drop of the suffixed key
columns, then `drop_duplicates` on the composite key — the deduplication is
part of the enrichment step, before any filtering. -/
def enrich_assays (assays : List AssayRow) (targets : List TargetRow)
    (quality_stats : List QualityRow) (conc_curves : List ConcRow) :
    List EnrichedRow :=
  dropDuplicatesFirst (rawJoin assays targets quality_stats conc_curves)

/-- `query('organism == "human"')`: a missing organism never equals the
string, as in pandas. -/
def rule1 (r : EnrichedRow) : Bool :=
  r.organism == some "human"

/-- `query('intended_target_family_sub != "cytotoxicity" or
biological_process_target != ["cell death", "cell proliferation"]')`; in a
pandas query, `!=` against a list is list non-membership. -/
def rule2 (r : EnrichedRow) : Bool :=
  (r.intended_target_family_sub != some "cytotoxicity")
    || !(([some "cell death", some "cell proliferation"] :
          List (Option String)).contains r.biological_process_target)

/-- `query('assay_function_type != "background control" or assay_design_type
!= ["background reporter", "viability reporter"] or intended_target_family
!= "background measurement"')`. -/
def rule3 (r : EnrichedRow) : Bool :=
  (r.assay_function_type != some "background control")
    || !(([some "background reporter", some "viability reporter"] :
          List (Option String)).contains r.assay_design_type)
    || (r.intended_target_family != some "background measurement")

/-- `query('hitc == 1')`. -/
def rule4 (r : EnrichedRow) : Bool :=
  r.hitc == some 1

/-- The conjunction of the four active predicates of `filter_assays`.  The
source contains no active query on `flags` (the flag filter is commented
out) and none on `acnt`. -/
def keepRow (r : EnrichedRow) : Bool :=
  rule1 r && rule2 r && rule3 r && rule4 r

/-- `filter_assays`: the four successive `query` calls of the source. -/
def filter_assays (assays : List EnrichedRow) : List EnrichedRow :=
  (((assays.filter rule1).filter rule2).filter rule3).filter rule4

/-- The per-row effect of `adjust_tissue`:
`assays.loc[~assays["cell_short_name"].isna(), "tissue"] = np.nan`. -/
def adjustRow (r : EnrichedRow) : EnrichedRow :=
  if r.cell_short_name = none then r else { r with tissue := none }

/-- `adjust_tissue` applied to a whole table. -/
def adjust_tissue (assays : List EnrichedRow) : List EnrichedRow :=
  assays.map adjustRow

/-- The `__main__` pipeline from already-loaded tables to the rows written to
the output file: enrich, adjust tissue in place, filter. -/
def pipeline (assays : List AssayRow) (targets : List TargetRow)
    (quality_stats : List QualityRow) (conc_curves : List ConcRow) :
    List EnrichedRow :=
  filter_assays (adjust_tissue (enrich_assays assays targets quality_stats conc_curves))

/-- `to_csv` writes every row of the filtered table unchanged, in order. -/
def export_rows (l : List EnrichedRow) : List EnrichedRow := l

/-- `assays_cols` of the source. -/
def assays_cols : List String :=
  ["assay_component_endpoint_name", "acid",
   "assay_component_name", "assay_function_type", "intended_target_family",
   "intended_target_family_sub", "assay_component_desc", "assay_design_type",
   "biological_process_target", "organism", "tissue",
   "cell_format", "cell_short_name", "assay_format_type"]

/-- `targets_cols` of the source. -/
def targets_cols : List String := ["official_symbol", "aenm"]

/-- `quality_stats_cols` of the source. -/
def quality_stats_cols : List String := ["aenm", "acnt"]

/-- `conc_curves_cols` of the source. -/
def conc_curves_cols : List String := ["aenm", "hitc", "flags"]

/-- Column bookkeeping of `pd.merge` with `left_on`/`right_on`: both key
columns are kept, and any column name present in both frames gets the suffix
`_x` on the left copy and `_y` on the right copy. -/
def mergeColumns (l r : List String) : List String :=
  (l.map fun c => if r.contains c then c ++ "_x" else c)
    ++ (r.map fun c => if l.contains c then c ++ "_y" else c)

/-- `.drop(toDrop, axis=1)` at column level. -/
def dropColumns (cols toDrop : List String) : List String :=
  cols.filter fun c => !(toDrop.contains c)

/-- The column list of the enriched table: three merges then
`.drop(["aenm_x", "aenm_y"], axis=1)`. -/
def enriched_columns : List String :=
  dropColumns
    (mergeColumns
      (mergeColumns (mergeColumns assays_cols targets_cols) quality_stats_cols)
      conc_curves_cols)
    ["aenm_x", "aenm_y"]

/-- The columns `to_csv` writes: `__main__` performs no projection before
writing, so every column of the filtered table is serialized. -/
def exported_columns : List String := enriched_columns

/-- Modelled from the spec: the fixed ordered list of eleven output columns
the Exporter is claimed to project onto (endpoint id, endpoint name, function
type, target family, description, biological process target, tissue, cell
format, cell short name, assay format type, gene symbol), in the column names
of the source tables.  No such projection exists in the code; this definition
exists to compare the claim against `exported_columns`. -/
def claimed_output_columns : List String :=
  ["assay_component_endpoint_name", "assay_component_name",
   "assay_function_type", "intended_target_family", "assay_component_desc",
   "biological_process_target", "tissue", "cell_format", "cell_short_name",
   "assay_format_type", "official_symbol"]

/-- Modelled from the spec: the Domain Filter as the spec states it, with
deduplication on the composite key applied after predicate filtering,
keeping the first occurrence among the rows that pass the predicates.  This
definition exists to compare the claimed ordering against the pipeline. -/
def spec_filter_then_dedup (l : List EnrichedRow) : List EnrichedRow :=
  dropDuplicatesFirst (filter_assays l)

/-! Concrete rows used by counterexamples and witnesses. -/

/-- A human assay row that passes every active predicate of the filter. -/
def aHuman : AssayRow :=
  { assay_component_endpoint_name := some "E", acid := some 1,
    assay_component_name := some "A", assay_function_type := some "signaling",
    intended_target_family := some "receptor",
    intended_target_family_sub := some "receptor",
    assay_component_desc := some "d", assay_design_type := some "binding",
    biological_process_target := some "binding", organism := some "human",
    tissue := some "liver", cell_format := some "cell line",
    cell_short_name := none, assay_format_type := some "biochemical" }

/-- The same assay row with a rat organism. -/
def aRat : AssayRow := { aHuman with organism := some "rat" }

/-- The same assay row with a missing endpoint name. -/
def aNull : AssayRow := { aHuman with assay_component_endpoint_name := none }

/-- A target row matching endpoint `E`. -/
def tG : TargetRow := { official_symbol := some "G", aenm := some "E" }

/-- A target row with a missing endpoint name. -/
def tNull : TargetRow := { official_symbol := some "G", aenm := none }

/-- A quality-statistics row matching endpoint `E`. -/
def qE : QualityRow := { aenm := some "E", acnt := some 5 }

/-- A quality-statistics row with a missing endpoint name. -/
def qNull : QualityRow := { aenm := none, acnt := some 5 }

/-- An active unflagged concentration-curve row for endpoint `E`. -/
def cOK : ConcRow := { aenm := some "E", hitc := some 1, flags := none }

/-- An active concentration-curve row for endpoint `E` carrying a QC flag. -/
def cFlag : ConcRow := { aenm := some "E", hitc := some 1, flags := some "m4" }

/-- A concentration-curve row with a missing endpoint name. -/
def cNull : ConcRow := { aenm := none, hitc := some 1, flags := none }

/-! Shared lemmas. -/

/-- Membership in an inner merge is membership on both sides together with
key equality — equality of `Option` values, so a missing key matches a
missing key. -/
lemma mem_innerMerge {α β : Type} {ls : List α} {rs : List β}
    {kl : α → Option String} {kr : β → Option String} {p : α × β} :
    p ∈ innerMerge ls rs kl kr ↔ p.1 ∈ ls ∧ p.2 ∈ rs ∧ kr p.2 = kl p.1 := by
  simp only [innerMerge, List.mem_flatMap, List.mem_map, List.mem_filter,
    beq_iff_eq]
  constructor
  · rintro ⟨a, ha, b, ⟨hb, hk⟩, rfl⟩
    exact ⟨ha, hb, hk⟩
  · rintro ⟨ha, hb, hk⟩
    exact ⟨p.1, ha, p.2, ⟨hb, hk⟩, rfl⟩

/-- Rows kept by `drop_duplicates` come from the input list. -/
lemma mem_of_mem_dropDupAux {seen : List (Option String × Option String × Option String)}
    {l : List EnrichedRow} {r : EnrichedRow}
    (h : r ∈ dropDupAux seen l) : r ∈ l := by
  induction l generalizing seen with
  | nil => simp [dropDupAux] at h
  | cons x xs ih =>
    simp only [dropDupAux] at h
    split at h
    · exact List.mem_cons_of_mem x (ih h)
    · rcases List.mem_cons.mp h with h | h
      · exact h ▸ List.mem_cons_self x xs
      · exact List.mem_cons_of_mem x (ih h)

/-- A row kept by `drop_duplicates` has a key unseen so far, and is the first
row of the input carrying its key. -/
lemma dropDupAux_key_find {seen : List (Option String × Option String × Option String)}
    {l : List EnrichedRow} {r : EnrichedRow}
    (h : r ∈ dropDupAux seen l) :
    dedupKey r ∉ seen ∧
      l.find? (fun s => dedupKey s == dedupKey r) = some r := by
  induction l generalizing seen with
  | nil => simp [dropDupAux] at h
  | cons x xs ih =>
    simp only [dropDupAux] at h
    split at h
    case isTrue hx =>
      obtain ⟨hns, hf⟩ := ih h
      have hne : (dedupKey x == dedupKey r) = false := by
        simp only [beq_eq_false_iff_ne, ne_eq]
        exact fun he => hns (he ▸ hx)
      refine ⟨hns, ?_⟩
      rw [List.find?_cons]
      simp [hne, hf]
    case isFalse hx =>
      rcases List.mem_cons.mp h with h | h
      · subst h
        refine ⟨hx, ?_⟩
        rw [List.find?_cons]
        simp
      · obtain ⟨hns, hf⟩ := ih h
        have hr : dedupKey r ∉ seen := fun hs => hns (List.mem_cons_of_mem _ hs)
        have hne : (dedupKey x == dedupKey r) = false := by
          simp only [beq_eq_false_iff_ne, ne_eq]
          intro he
          exact hns (he ▸ List.mem_cons_self _ _)
        refine ⟨hr, ?_⟩
        rw [List.find?_cons]
        simp [hne, hf]

/-- The keys of the rows kept by `drop_duplicates` are pairwise distinct. -/
lemma pairwise_dropDupAux (seen : List (Option String × Option String × Option String))
    (l : List EnrichedRow) :
    List.Pairwise (fun a b => dedupKey a ≠ dedupKey b) (dropDupAux seen l) := by
  induction l generalizing seen with
  | nil => simp [dropDupAux]
  | cons x xs ih =>
    simp only [dropDupAux]
    split
    · exact ih seen
    · refine List.Pairwise.cons ?_ (ih _)
      intro y hy he
      exact (dropDupAux_key_find hy).1 (by simp [he])

/-- The four successive filters keep a subsequence of the input. -/
lemma filter_assays_sublist (l : List EnrichedRow) :
    List.Sublist (filter_assays l) l :=
  ((((List.filter_sublist _).trans (List.filter_sublist _)).trans
    (List.filter_sublist _)).trans (List.filter_sublist _))

/-- Membership in the filtered table is membership in the input together with
the conjunction of the four active predicates. -/
lemma mem_filter_assays {l : List EnrichedRow} {r : EnrichedRow} :
    r ∈ filter_assays l ↔ r ∈ l ∧ keepRow r = true := by
  simp only [filter_assays, keepRow, List.mem_filter, Bool.and_eq_true]
  tauto

/-- Adjusting the tissue does not change the deduplication key. -/
lemma adjustRow_dedupKey (r : EnrichedRow) :
    dedupKey (adjustRow r) = dedupKey r := by
  by_cases h : r.cell_short_name = none <;> simp [adjustRow, dedupKey, h]

/-- The per-row tissue adjustment is idempotent. -/
lemma adjustRow_idem (r : EnrichedRow) :
    adjustRow (adjustRow r) = adjustRow r := by
  by_cases h : r.cell_short_name = none <;> simp [adjustRow, h]

/-! Claims. -/

/-- C1, counterexample: the filter does not exclude rows with a non-null
`flags` value — the QC-flag query is commented out in the source — so a row
carrying the flag `m4` survives `filter_assays` unchanged. -/
theorem C1_counterexample :
    (buildRow aHuman tG qE cFlag).flags = some "m4" ∧
      filter_assays [buildRow aHuman tG qE cFlag]
        = [buildRow aHuman tG qE cFlag] := by
  decide

/-- C1, amended: the Domain Filter applies no QC-flag exclusion: the `flags`
attribute has no effect on whether a row is kept, and a row is in the
filter's output exactly when it is an input row that satisfies the species,
cytotoxicity, background and activity predicates. -/
theorem C1_flags_not_filtered (l : List EnrichedRow) (r : EnrichedRow)
    (x : Option String) :
    keepRow { r with flags := x } = keepRow r ∧
      (r ∈ filter_assays l ↔ r ∈ l ∧ keepRow r = true) :=
  ⟨rfl, mem_filter_assays⟩

/-- C2, counterexample: with two joined rows sharing the deduplication key —
a rat row first, a human row second — the pipeline output is empty, although
the human row passes all predicates and is present in the pre-deduplication
join, and deduplicating after filtering (as the claim states) would keep it:
deduplication runs before predicate filtering, not after. -/
theorem C2_counterexample :
    pipeline [aRat, aHuman] [tG] [qE] [cOK] = [] ∧
      adjustRow (buildRow aHuman tG qE cOK)
        ∈ adjust_tissue (rawJoin [aRat, aHuman] [tG] [qE] [cOK]) ∧
      keepRow (adjustRow (buildRow aHuman tG qE cOK)) = true ∧
      spec_filter_then_dedup (adjust_tissue (rawJoin [aRat, aHuman] [tG] [qE] [cOK]))
        = [adjustRow (buildRow aHuman tG qE cOK)] := by
  decide

/-- C2, amended: deduplication on the composite key (assay_component_name,
biological_process_target, official_symbol) is applied during enrichment,
before predicate filtering, keeping the first occurrence in join order;
composite keys are pairwise distinct among the rows of the final output, and
the row kept for a key is the first occurrence among all enriched rows — an
occurrence that may later fail the predicates, removing the key from the
output entirely. -/
theorem C2_dedup_before_filter (assays : List AssayRow)
    (targets : List TargetRow) (quality_stats : List QualityRow)
    (conc_curves : List ConcRow) :
    enrich_assays assays targets quality_stats conc_curves
        = dropDuplicatesFirst (rawJoin assays targets quality_stats conc_curves) ∧
      List.Pairwise (fun a b => dedupKey a ≠ dedupKey b)
        (pipeline assays targets quality_stats conc_curves) ∧
      ∀ r ∈ enrich_assays assays targets quality_stats conc_curves,
        (rawJoin assays targets quality_stats conc_curves).find?
          (fun s => dedupKey s == dedupKey r) = some r := by
  refine ⟨rfl, ?_, ?_⟩
  · have h1 : List.Pairwise (fun a b => dedupKey a ≠ dedupKey b)
        (enrich_assays assays targets quality_stats conc_curves) :=
      pairwise_dropDupAux [] _
    have h2 : List.Pairwise (fun a b => dedupKey a ≠ dedupKey b)
        (adjust_tissue (enrich_assays assays targets quality_stats conc_curves)) := by
      rw [adjust_tissue, List.pairwise_map]
      exact h1.imp (by simp [adjustRow_dedupKey])
    exact h2.sublist (filter_assays_sublist _)
  · intro r hr
    exact (dropDupAux_key_find hr).2

/-- C2, witness for the amended theorem. -/
theorem C2_dedup_before_filter_witness :
    (rawJoin [aHuman] [tG] [qE] [cOK]).find?
      (fun s => dedupKey s == dedupKey (buildRow aHuman tG qE cOK))
      = some (buildRow aHuman tG qE cOK) :=
  (C2_dedup_before_filter [aHuman] [tG] [qE] [cOK]).2.2
    (buildRow aHuman tG qE cOK) (by decide)

/-- C3, counterexample: the serialized output is not the claimed
eleven-column projection — for instance the `organism` column is written out
although it is not among the eleven output columns. -/
theorem C3_counterexample :
    exported_columns ≠ claimed_output_columns ∧
      "organism" ∈ exported_columns ∧
      "organism" ∉ claimed_output_columns := by
  decide

/-- C3, amended: the Exporter performs no projection: it serializes every
column of the filtered table — the fourteen projected assay columns followed
by official_symbol, acnt, aenm, hitc and flags — writing the rows unchanged
and in order. -/
theorem C3_export_all_columns (l : List EnrichedRow) :
    exported_columns
        = assays_cols ++ ["official_symbol", "acnt", "aenm", "hitc", "flags"] ∧
      export_rows l = l :=
  ⟨by decide, rfl⟩

/-- C4, counterexample: `aenm` is the right-side key column of the
concentration-curves join, and it survives in the joined table: the third
merge causes no name collision, so this right-side copy of the join key is
never suffixed and never dropped. -/
theorem C4_counterexample :
    "aenm" ∈ conc_curves_cols ∧ "aenm" ∈ enriched_columns := by
  decide

/-- C4, amended: the suffixed duplicate key columns `aenm_x` and `aenm_y`
contributed by the targets and quality-statistics sides are dropped, and the
left-side key column `assay_component_endpoint_name` remains, but the
right-side key column of the concentration-curves join keeps its unsuffixed
name `aenm` and remains in the joined table. -/
theorem C4_drop_suffixed_keys :
    "aenm_x" ∉ enriched_columns ∧ "aenm_y" ∉ enriched_columns ∧
      "assay_component_endpoint_name" ∈ enriched_columns ∧
      "aenm" ∈ enriched_columns := by
  decide

/-- C5, counterexample: a row whose join key is missing on every side still
joins — pandas merge matches missing keys with each other — so an output row
of the joiner does arise from a null-null key pairing. -/
theorem C5_counterexample :
    aNull.assay_component_endpoint_name = none ∧
      tNull.aenm = none ∧ qNull.aenm = none ∧ cNull.aenm = none ∧
      enrich_assays [aNull] [tNull] [qNull] [cNull]
        = [buildRow aNull tNull qNull cNull] := by
  decide

/-- C5, amended: join key comparison is exact equality of optional values in
which a missing key matches a missing key: a pair of rows is in the joiner's
output exactly when both rows occur in their tables and the right key equals
the left key as `Option` values, the none-none case included. -/
theorem C5_null_matches_null {α β : Type} (ls : List α) (rs : List β)
    (kl : α → Option String) (kr : β → Option String) (a : α) (b : β) :
    (a, b) ∈ innerMerge ls rs kl kr ↔ a ∈ ls ∧ b ∈ rs ∧ kr b = kl a :=
  mem_innerMerge

/-- C6, confirmed: the cytotoxicity-artifact rule excludes exactly the rows
whose target family sub-family is "cytotoxicity" and whose biological process
target is "cell death" or "cell proliferation": such a row is never kept (any
row the filter outputs satisfies the rule), while every other row passes the
rule. -/
theorem C6_cytotoxicity_exclusion (l : List EnrichedRow) (r : EnrichedRow) :
    (rule2 r = false ↔
      (r.intended_target_family_sub = some "cytotoxicity" ∧
        (r.biological_process_target = some "cell death" ∨
          r.biological_process_target = some "cell proliferation"))) ∧
    (r ∈ filter_assays l → rule2 r = true) := by
  constructor
  · simp [rule2, List.contains]
    tauto
  · intro h
    have hk := (mem_filter_assays.mp h).2
    simp only [keepRow, Bool.and_eq_true] at hk
    exact hk.1.1.2

/-- C6, witness. -/
theorem C6_cytotoxicity_exclusion_witness :
    rule2 (buildRow aHuman tG qE cOK) = true :=
  (C6_cytotoxicity_exclusion [buildRow aHuman tG qE cOK]
    (buildRow aHuman tG qE cOK)).2 (by decide)

/-- C7, confirmed: the Tissue Normalizer nulls the tissue attribute on every
row with a non-null cell identifier and keeps the tissue of every row with a
null cell identifier, it acts row by row, and it is idempotent. -/
theorem C7_tissue_normalizer (l : List EnrichedRow) (r : EnrichedRow) :
    (adjustRow r).tissue
        = (if r.cell_short_name = none then r.tissue else none) ∧
      adjust_tissue l = l.map adjustRow ∧
      adjust_tissue (adjust_tissue l) = adjust_tissue l := by
  refine ⟨?_, rfl, ?_⟩
  · by_cases h : r.cell_short_name = none <;> simp [adjustRow, h]
  · simp [adjust_tissue, List.map_map, Function.comp, adjustRow_idem]

/-- C8, confirmed: the Domain Filter is a pure subset transform — every
output row is one of the input rows — and every output row has organism
exactly "human" and hit-call exactly 1. -/
theorem C8_filter_pure_subset (l : List EnrichedRow) (r : EnrichedRow)
    (h : r ∈ filter_assays l) :
    r ∈ l ∧ r.organism = some "human" ∧ r.hitc = some 1 := by
  obtain ⟨hl, hk⟩ := mem_filter_assays.mp h
  simp only [keepRow, rule1, rule4, Bool.and_eq_true, beq_iff_eq] at hk
  exact ⟨hl, hk.1.1.1, hk.2⟩

/-- C8, witness. -/
theorem C8_filter_pure_subset_witness :
    buildRow aHuman tG qE cOK ∈ [buildRow aHuman tG qE cOK] ∧
      (buildRow aHuman tG qE cOK).organism = some "human" ∧
      (buildRow aHuman tG qE cOK).hitc = some 1 :=
  C8_filter_pure_subset [buildRow aHuman tG qE cOK]
    (buildRow aHuman tG qE cOK) (by decide)

/-- C9, confirmed: every row of the enriched table has matching key values
across all joined sources — its endpoint-name key equals the key of some
assay row, some target row, some quality-statistics row and some
concentration-curve row. -/
theorem C9_join_correctness (assays : List AssayRow) (targets : List TargetRow)
    (quality_stats : List QualityRow) (conc_curves : List ConcRow)
    (r : EnrichedRow)
    (h : r ∈ enrich_assays assays targets quality_stats conc_curves) :
    (∃ a ∈ assays,
        a.assay_component_endpoint_name = r.assay_component_endpoint_name) ∧
      (∃ t ∈ targets, t.aenm = r.assay_component_endpoint_name) ∧
      (∃ q ∈ quality_stats, q.aenm = r.assay_component_endpoint_name) ∧
      (∃ c ∈ conc_curves, c.aenm = r.assay_component_endpoint_name) := by
  have hraw : r ∈ rawJoin assays targets quality_stats conc_curves :=
    mem_of_mem_dropDupAux h
  simp only [rawJoin, List.mem_map] at hraw
  obtain ⟨p, hp, hb⟩ := hraw
  obtain ⟨hp2, hc, hkc⟩ := mem_innerMerge.mp hp
  obtain ⟨hp1, hq, hkq⟩ := mem_innerMerge.mp hp2
  obtain ⟨ha, ht, hkt⟩ := mem_innerMerge.mp hp1
  obtain ⟨⟨⟨a, t⟩, q⟩, c⟩ := p
  subst hb
  exact ⟨⟨a, ha, rfl⟩, ⟨t, ht, hkt⟩, ⟨q, hq, hkq⟩, ⟨c, hc, hkc⟩⟩

/-- C9, witness. -/
theorem C9_join_correctness_witness :
    (∃ a ∈ [aHuman], a.assay_component_endpoint_name
        = (buildRow aHuman tG qE cOK).assay_component_endpoint_name) ∧
      (∃ t ∈ [tG],
        t.aenm = (buildRow aHuman tG qE cOK).assay_component_endpoint_name) ∧
      (∃ q ∈ [qE],
        q.aenm = (buildRow aHuman tG qE cOK).assay_component_endpoint_name) ∧
      (∃ c ∈ [cOK],
        c.aenm = (buildRow aHuman tG qE cOK).assay_component_endpoint_name) :=
  C9_join_correctness [aHuman] [tG] [qE] [cOK]
    (buildRow aHuman tG qE cOK) (by decide)

/-- C10, confirmed: the Tissue Normalizer preserves row count and row order
and, on every row, changes nothing except possibly the tissue attribute —
all eighteen other attributes are unchanged. -/
theorem C10_adjust_tissue_frame (l : List EnrichedRow) (r : EnrichedRow)
    (i : Nat) :
    (adjust_tissue l).length = l.length ∧
      (adjust_tissue l)[i]? = (l[i]?).map adjustRow ∧
      (adjustRow r).assay_component_endpoint_name
        = r.assay_component_endpoint_name ∧
      (adjustRow r).acid = r.acid ∧
      (adjustRow r).assay_component_name = r.assay_component_name ∧
      (adjustRow r).assay_function_type = r.assay_function_type ∧
      (adjustRow r).intended_target_family = r.intended_target_family ∧
      (adjustRow r).intended_target_family_sub = r.intended_target_family_sub ∧
      (adjustRow r).assay_component_desc = r.assay_component_desc ∧
      (adjustRow r).assay_design_type = r.assay_design_type ∧
      (adjustRow r).biological_process_target = r.biological_process_target ∧
      (adjustRow r).organism = r.organism ∧
      (adjustRow r).cell_format = r.cell_format ∧
      (adjustRow r).cell_short_name = r.cell_short_name ∧
      (adjustRow r).assay_format_type = r.assay_format_type ∧
      (adjustRow r).official_symbol = r.official_symbol ∧
      (adjustRow r).acnt = r.acnt ∧
      (adjustRow r).aenm = r.aenm ∧
      (adjustRow r).hitc = r.hitc ∧
      (adjustRow r).flags = r.flags := by
  by_cases h : r.cell_short_name = none <;>
    simp [adjust_tissue, adjustRow, h, List.getElem?_map]

end ToxCast
